import Mathlib

/-!
Shallow embedding of the security property-policy construction engine of
rmw_fastrtps (files src/rmw_fastrtps_shared_cpp/src/rmw_security.cpp and
src/rmw_fastrtps_shared_cpp/src/rmw_security_logging.cpp), together with
theorems settling the specification claims about it.

Modelling conventions:
- `eprosima::fastrtps::rtps::Property` is a pair of strings; `PropertySeq`
  is a list of properties.
- The tinyxml2 `DocumentReader` capability is modelled by `XMLElement`
  (tag, optional text content, ordered child list); a loaded document is
  the ordered list of its top-level elements.  A file that is unreadable
  or fails to parse yields a document with no `security_log` element,
  which is all the code observes of it.
- The filesystem (rcutils) capability is modelled by a readability
  predicate `readable : String -> Bool` and a path-join function; the
  XML loader is a function from file path to document.
- The out-of-band rmw error slot is modelled as an `Option String`
  component of each result: `some msg` means the call executed
  RMW_SET_ERROR_MSG with that message.
- `HAVE_SECURITY` is taken to be defined (the security-enabled build);
  the `#else` branches are not modelled.
- C++ functions that signal failure through a `bool` return plus an
  out-parameter are modelled with `Option`/`Except` or explicit result
  tuples, as noted at each definition.
-/

set_option autoImplicit false

/-- Model of a tinyxml2 XML element: a tag name, optional text content
(`none` models `GetText()` returning null, e.g. for `<file></file>`),
and the ordered list of child elements. -/
inductive XMLElement : Type where
  | mk : String → Option String → List XMLElement → XMLElement
deriving Repr

/-- Tag name of an element. -/
def XMLElement.tag : XMLElement → String
  | .mk t _ _ => t

/-- Text content of an element (`GetText()`, `none` for null). -/
def XMLElement.text : XMLElement → Option String
  | .mk _ x _ => x

/-- Ordered children of an element. -/
def XMLElement.children : XMLElement → List XMLElement
  | .mk _ _ c => c

/-- tinyxml2 `FirstChildElement(name)`: the first child whose tag is
`name`, wherever it occurs in the child list. -/
def XMLElement.firstChildElement (e : XMLElement) (name : String) : Option XMLElement :=
  e.children.find? (fun c => c.tag == name)

/-- A loaded XML document: the ordered list of top-level elements. -/
abbrev XMLDocument := List XMLElement

/-- Document-level `FirstChildElement(name)`. -/
def XMLDocument.firstChildElement (doc : XMLDocument) (name : String) : Option XMLElement :=
  doc.find? (fun c => c.tag == name)

/-- `eprosima::fastrtps::rtps::Property`: a name/value pair of strings. -/
structure Property where
  name : String
  value : String
deriving DecidableEq, Repr

/-- `eprosima::fastrtps::rtps::PropertySeq`: an ordered property list. -/
abbrev PropertySeq := List Property

/-- Value of the first property with the given name, if any (the lookup
used by the callers and the repository test helper `lookup_property`). -/
def lookup_property (properties : PropertySeq) (name : String) : Option String :=
  match properties with
  | [] => none
  | p :: rest => if p.name = name then some p.value else lookup_property rest name

/-- Names are pairwise distinct in the collection. -/
def names_unique (properties : PropertySeq) : Prop :=
  (properties.map Property.name).Nodup

instance (properties : PropertySeq) : Decidable (names_unique properties) := by
  unfold names_unique; infer_instance

/-- Embeds `add_property` (identical anonymous-namespace copies in
rmw_security.cpp and rmw_security_logging.cpp): if a property with the
same name already exists, overwrite that (first) occurrence in place,
otherwise push the property at the back. -/
def add_property : PropertySeq → Property → PropertySeq
  | [], property => [property]
  | existing :: rest, property =>
    if existing.name = property.name then
      property :: rest
    else
      existing :: add_property rest property

/-- Shared property-name constant `logging_plugin_property_name`
(identical in both source files). -/
def logging_plugin_property_name : String := "dds.sec.log.plugin"

/-- Shared property-name constant `log_file_property_name`
(identical in both source files). -/
def log_file_property_name : String := "dds.sec.log.builtin.DDS_LogTopic.log_file"

/-- Shared property-name constant `distribute_enable_property_name`
(identical in both source files). -/
def distribute_enable_property_name : String := "dds.sec.log.builtin.DDS_LogTopic.distribute"

/-- Shared property-name constant `distribute_depth_property_name`
(identical in both source files). -/
def distribute_depth_property_name : String :=
  "com.rti.serv.secure.logging.distribute.writer_history_depth"

/-- Embeds `rmw_qos_profile_t` restricted to the only field this code
consumes, the history `depth` (a `size_t`). -/
structure rmw_qos_profile_t where
  depth : Nat
deriving DecidableEq, Repr

/-- Modelled from the external rmw package (rmw/qos_profiles.h):
`rmw_qos_profile_sensor_data` has history depth 5. -/
def rmw_qos_profile_sensor_data : rmw_qos_profile_t := ⟨5⟩

/-- Modelled from the external rmw package: depth 1000. -/
def rmw_qos_profile_parameters : rmw_qos_profile_t := ⟨1000⟩

/-- Modelled from the external rmw package: depth 10 (the repository
test `test_profile` confirms the DEFAULT profile renders depth "10"). -/
def rmw_qos_profile_default : rmw_qos_profile_t := ⟨10⟩

/-- Modelled from the external rmw package: depth 10. -/
def rmw_qos_profile_services_default : rmw_qos_profile_t := ⟨10⟩

/-- Modelled from the external rmw package: depth 1000. -/
def rmw_qos_profile_parameter_events : rmw_qos_profile_t := ⟨1000⟩

/-- Modelled from the external rmw package: system-default depth
(RMW_QOS_POLICY_DEPTH_SYSTEM_DEFAULT = 0). -/
def rmw_qos_profile_system_default : rmw_qos_profile_t := ⟨0⟩

/-- Embeds the `supported_profiles` table (identical in both source
files): six named profiles, in source order. -/
def supported_profiles : List (String × rmw_qos_profile_t) :=
  [("SENSOR_DATA", rmw_qos_profile_sensor_data),
   ("PARAMETERS", rmw_qos_profile_parameters),
   ("DEFAULT", rmw_qos_profile_default),
   ("SERVICES_DEFAULT", rmw_qos_profile_services_default),
   ("PARAMETER_EVENTS", rmw_qos_profile_parameter_events),
   ("SYSTEM_DEFAULT", rmw_qos_profile_system_default)]

/-- Embeds `string_to_rmw_qos_profile` (identical in both source files):
scan the table for an exact string match; the C++ bool-plus-out-parameter
is modelled as an `Option`. -/
def string_to_rmw_qos_profile (str : String) : Option rmw_qos_profile_t :=
  (supported_profiles.find? (fun item => item.1 == str)).map (fun item => item.2)

/-- Embeds `add_property_from_xml_element` (identical in both source
files).  The C++ returns false after setting the error message when the
tag is present without text; otherwise it returns true, having upserted
the property when the tag is present.  Modelled as `Except`: `.error msg`
is the failing return with the error slot set to `msg`. -/
def add_property_from_xml_element (properties : PropertySeq) (property_name : String)
    (element : XMLElement) (tag_name : String) : Except String PropertySeq :=
  match element.firstChildElement tag_name with
  | none => .ok properties
  | some tag =>
    match tag.text with
    | none => .error ("failed to set security logging " ++ tag_name ++ ": improper format")
    | some text => .ok (add_property properties ⟨property_name, text⟩)

/-- Embeds `add_properties_from_qos_profile` (identical in both source
files): upsert the distribution-depth property with the profile depth
rendered in decimal (`std::to_string`). -/
def add_properties_from_qos_profile (properties : PropertySeq)
    (profile : rmw_qos_profile_t) : PropertySeq :=
  add_property properties ⟨distribute_depth_property_name, toString profile.depth⟩

/-- Modelled from the external rmw package (rmw/ret_types.h):
`RMW_RET_ERROR` is the nonzero integer error code (value 1). -/
def RMW_RET_ERROR : Int := 1

/-- C++ implicit conversion from an integer to `bool`: nonzero is true.
Used where the source returns `RMW_RET_ERROR` from a `bool` function. -/
def int_to_bool (i : Int) : Bool := i != 0

/-- Embeds the profile-handling block inside the `qos` branch of
`apply_logging_configuration_from_file` (identical in both source
files): if a `profile` child exists, take its text (failing when null),
resolve it against the catalog (failing when unknown), and merge the
derived properties; with no `profile` child the properties pass through
unchanged. -/
def qos_profile_step (properties : PropertySeq) (qos_element : XMLElement) :
    Except String PropertySeq :=
  match qos_element.firstChildElement "profile" with
  | none => .ok properties
  | some profile_element =>
    match profile_element.text with
    | none => .error "failed to set security logging profile: improper format"
    | some profile_str =>
      match string_to_rmw_qos_profile profile_str with
      | none =>
        .error ("failed to set security logging profile: " ++ profile_str ++
          " is not a supported profile")
      | some profile => .ok (add_properties_from_qos_profile properties profile)

namespace RmwSecurityLogging

/-- Embeds `verbosity_property_name` of rmw_security_logging.cpp
(note: this copy says `event_log_level`). -/
def verbosity_property_name : String := "dds.sec.log.builtin.DDS_LogTopic.event_log_level"

/-- Embeds the body of `apply_logging_configuration_from_file`
(rmw_security_logging.cpp) after the root element was found: the
construction of `new_properties`.  Every C++ early `return status`
after a failing step is an `Except.bind` short-circuit. -/
def parse_log_element (log_element : XMLElement) : Except String PropertySeq :=
  let properties := add_property [] ⟨logging_plugin_property_name, "builtin.DDS_LogTopic"⟩
  (add_property_from_xml_element properties log_file_property_name log_element
      "file").bind fun properties =>
  (add_property_from_xml_element properties verbosity_property_name log_element
      "verbosity").bind fun properties =>
  (add_property_from_xml_element properties distribute_enable_property_name log_element
      "distribute").bind fun properties =>
  match log_element.firstChildElement "qos" with
  | none => .ok properties
  | some qos_element =>
    (qos_profile_step properties qos_element).bind fun properties =>
      add_property_from_xml_element properties distribute_depth_property_name qos_element
        "depth"

/-- Embeds `apply_logging_configuration_from_file`
(rmw_security_logging.cpp).  Result components: the `bool` return value,
the error-slot message set by the call (if any), and the caller `properties`
sequence after the call.  Note the source returns `RMW_RET_ERROR` (an
`int`, implicitly converted to `bool`) when the root element is missing,
and merges `new_properties` into the caller sequence only after a fully
successful parse. -/
def apply_logging_configuration_from_file (document : XMLDocument)
    (properties : PropertySeq) : Bool × Option String × PropertySeq :=
  match document.firstChildElement "security_log" with
  | none =>
    (int_to_bool RMW_RET_ERROR, some "logger xml file missing \x27security_log\x27", properties)
  | some log_element =>
    match parse_log_element log_element with
    | .error msg => (false, some msg, properties)
    | .ok new_properties => (true, none, new_properties.foldl add_property properties)

end RmwSecurityLogging

namespace RmwSecurity

/-- Embeds `verbosity_property_name` of rmw_security.cpp
(note: this copy says `logging_level`). -/
def verbosity_property_name : String := "dds.sec.log.builtin.DDS_LogTopic.logging_level"

/-- Embeds the body of `apply_logging_configuration_from_file`
(rmw_security.cpp) after the root element was found; identical to the
rmw_security_logging.cpp copy except for `verbosity_property_name`. -/
def parse_log_element (log_element : XMLElement) : Except String PropertySeq :=
  let properties := add_property [] ⟨logging_plugin_property_name, "builtin.DDS_LogTopic"⟩
  (add_property_from_xml_element properties log_file_property_name log_element
      "file").bind fun properties =>
  (add_property_from_xml_element properties verbosity_property_name log_element
      "verbosity").bind fun properties =>
  (add_property_from_xml_element properties distribute_enable_property_name log_element
      "distribute").bind fun properties =>
  match log_element.firstChildElement "qos" with
  | none => .ok properties
  | some qos_element =>
    (qos_profile_step properties qos_element).bind fun properties =>
      add_property_from_xml_element properties distribute_depth_property_name qos_element
        "depth"

/-- Embeds `apply_logging_configuration_from_file` (rmw_security.cpp,
security-enabled branch).  The caller passes `policy.properties()`;
result components as in the rmw_security_logging.cpp copy. -/
def apply_logging_configuration_from_file (document : XMLDocument)
    (properties : PropertySeq) : Bool × Option String × PropertySeq :=
  match document.firstChildElement "security_log" with
  | none =>
    (int_to_bool RMW_RET_ERROR, some "logger xml file missing \x27security_log\x27", properties)
  | some log_element =>
    match parse_log_element log_element with
    | .error msg => (false, some msg, properties)
    | .ok new_properties => (true, none, new_properties.foldl add_property properties)

end RmwSecurity

/-- Embeds the file-name constant `identity_ca_cert_file_name`
(rmw_security.cpp). -/
def identity_ca_cert_file_name : String := "identity_ca.cert.pem"

/-- Embeds `permissions_ca_cert_file_name` (rmw_security.cpp). -/
def permissions_ca_cert_file_name : String := "permissions_ca.cert.pem"

/-- Embeds `governance_file_name` (rmw_security.cpp). -/
def governance_file_name : String := "governance.p7s"

/-- Embeds `cert_file_name` (rmw_security.cpp). -/
def cert_file_name : String := "cert.pem"

/-- Embeds `key_file_name` (rmw_security.cpp). -/
def key_file_name : String := "key.pem"

/-- Embeds `permissions_file_name` (rmw_security.cpp). -/
def permissions_file_name : String := "permissions.p7s"

/-- Embeds `logging_file_name` (rmw_security.cpp). -/
def logging_file_name : String := "logging.xml"

/-- Embeds `security_files_t` (rmw_security.cpp): the seven resolved
paths; `std::string` members default-construct to the empty string. -/
structure security_files_t where
  identity_ca_cert_path : String := ""
  permissions_ca_cert_path : String := ""
  governance_path : String := ""
  cert_path : String := ""
  key_path : String := ""
  permissions_path : String := ""
  logging_path : String := ""
deriving DecidableEq, Repr

/-- Modelled from the external rcutils package: `rcutils_join_path`
joins a directory and a file name with the path separator (allocation
failure is not modelled; the FileLocator join capability is total). -/
def rcutils_join_path (base name : String) : String := base ++ "/" ++ name

/-- Embeds `get_security_file_path` (rmw_security.cpp): join root and
file name and test readability; the bool-plus-out-parameter is modelled
as an `Option` (the out-parameter is written only on success).  The
filesystem readability probe `rcutils_is_readable` is the `readable`
parameter. -/
def get_security_file_path (readable : String → Bool) (node_secure_root : String)
    (file_name : String) : Option String :=
  let file_path := rcutils_join_path node_secure_root file_name
  if readable file_path then some file_path else none

/-- Embeds `get_security_file_paths` (rmw_security.cpp): resolve the six
mandatory files in source order, returning false at the first unreadable
one; the optional logging descriptor is probed last and its absence is
non-fatal.  The C++ mutates the caller-owned `security_files` struct
field by field as it goes; that out-parameter threading is kept: the
result pairs the `bool` return with the struct as left by the call. -/
def get_security_file_paths (readable : String → Bool) (node_secure_root : String)
    (security_files : security_files_t) : Bool × security_files_t :=
  match get_security_file_path readable node_secure_root identity_ca_cert_file_name with
  | none => (false, security_files)
  | some file_path =>
  let security_files := { security_files with identity_ca_cert_path := file_path }
  match get_security_file_path readable node_secure_root permissions_ca_cert_file_name with
  | none => (false, security_files)
  | some file_path =>
  let security_files := { security_files with permissions_ca_cert_path := file_path }
  match get_security_file_path readable node_secure_root governance_file_name with
  | none => (false, security_files)
  | some file_path =>
  let security_files := { security_files with governance_path := file_path }
  match get_security_file_path readable node_secure_root cert_file_name with
  | none => (false, security_files)
  | some file_path =>
  let security_files := { security_files with cert_path := file_path }
  match get_security_file_path readable node_secure_root key_file_name with
  | none => (false, security_files)
  | some file_path =>
  let security_files := { security_files with key_path := file_path }
  match get_security_file_path readable node_secure_root permissions_file_name with
  | none => (false, security_files)
  | some file_path =>
  let security_files := { security_files with permissions_path := file_path }
  match get_security_file_path readable node_secure_root logging_file_name with
  | none => (true, security_files)
  | some file_path => (true, { security_files with logging_path := file_path })

/-- Embeds `path_to_uri` (rmw_security.cpp). -/
def path_to_uri (file_path : String) : String := "file://" ++ file_path

/-- Embeds `rmw_node_security_options_t` as consumed here: the optional
security root path (a possibly-null C string) and the enforcement flag. -/
structure rmw_node_security_options_t where
  security_root_path : Option String
  enforce_security : Bool

/-- The nine properties `apply_security_options` (rmw_security.cpp)
appends with `emplace_back` after successful file resolution, in source
order. -/
def core_security_properties (security_files : security_files_t) : PropertySeq :=
  [⟨"dds.sec.auth.plugin", "builtin.PKI-DH"⟩,
   ⟨"dds.sec.auth.builtin.PKI-DH.identity_ca",
     path_to_uri security_files.identity_ca_cert_path⟩,
   ⟨"dds.sec.auth.builtin.PKI-DH.identity_certificate",
     path_to_uri security_files.cert_path⟩,
   ⟨"dds.sec.auth.builtin.PKI-DH.private_key",
     path_to_uri security_files.key_path⟩,
   ⟨"dds.sec.crypto.plugin", "builtin.AES-GCM-GMAC"⟩,
   ⟨"dds.sec.access.plugin", "builtin.Access-Permissions"⟩,
   ⟨"dds.sec.access.builtin.Access-Permissions.permissions_ca",
     path_to_uri security_files.permissions_ca_cert_path⟩,
   ⟨"dds.sec.access.builtin.Access-Permissions.governance",
     path_to_uri security_files.governance_path⟩,
   ⟨"dds.sec.access.builtin.Access-Permissions.permissions",
     path_to_uri security_files.permissions_path⟩]

/-- Embeds `apply_security_options` (rmw_security.cpp, security-enabled
branch).  `read_xml` models loading and parsing the XML file at a path
(the tinyxml2 `LoadFile` plus document).  Result components: the `bool`
return value, the error-slot message set by the call (if any), and the
caller `policy.properties()` after the call.  Note the nine core
properties are pushed with `emplace_back` (not `add_property`) before
the logging configuration is parsed. -/
def apply_security_options (readable : String → Bool) (read_xml : String → XMLDocument)
    (security_options : rmw_node_security_options_t)
    (policy : PropertySeq) : Bool × Option String × PropertySeq :=
  match security_options.security_root_path with
  | none => (true, none, policy)
  | some root =>
    match get_security_file_paths readable root {} with
    | (true, security_files) =>
      let policy := policy ++ core_security_properties security_files
      if security_files.logging_path.isEmpty then
        (true, none, policy)
      else
        RmwSecurity.apply_logging_configuration_from_file
          (read_xml security_files.logging_path) policy
    | (false, _) =>
      if security_options.enforce_security then
        (false, some "couldn\x27t find all security files!", policy)
      else
        (true, none, policy)

/-- Written from the spec wording of the refinement claim: the renaming
that turns an entry of the security-module logging parser output into
the corresponding entry of the security-logging-module output — the
verbosity property name `logging_level` becomes `event_log_level`,
every other entry is unchanged. -/
def spec_rename_verbosity (p : Property) : Property :=
  if p.name = RmwSecurity.verbosity_property_name then
    ⟨RmwSecurityLogging.verbosity_property_name, p.value⟩
  else
    p

/-- Every property name in a list belongs to the given name list. -/
def names_in (l : PropertySeq) (s : List String) : Prop :=
  ∀ q ∈ l, q.name ∈ s

instance (l : PropertySeq) (s : List String) : Decidable (names_in l s) := by
  unfold names_in; infer_instance

/-- The five property names the rmw_security.cpp logging parser can emit. -/
def security_parser_names : List String :=
  [logging_plugin_property_name, log_file_property_name, RmwSecurity.verbosity_property_name,
   distribute_enable_property_name, distribute_depth_property_name]

/-- No entry carries the security-logging-module verbosity name. -/
def no_event_name (l : PropertySeq) : Prop :=
  ∀ q ∈ l, q.name ≠ RmwSecurityLogging.verbosity_property_name

/-! ## Lemmas about `add_property`, `lookup_property` and merging -/

theorem lookup_add_property_self (l : PropertySeq) (p : Property) :
    lookup_property (add_property l p) p.name = some p.value := by
  induction l with
  | nil => simp [add_property, lookup_property]
  | cons e rest ih =>
    by_cases h : e.name = p.name
    · simp [add_property, h, lookup_property]
    · simp [add_property, h, lookup_property, ih]

theorem lookup_add_property_ne (l : PropertySeq) (p : Property) (n : String)
    (h : n ≠ p.name) : lookup_property (add_property l p) n = lookup_property l n := by
  induction l with
  | nil => simp [add_property, lookup_property, Ne.symm h]
  | cons e rest ih =>
    by_cases he : e.name = p.name
    · have h2 : ¬ e.name = n := by rw [he]; exact Ne.symm h
      simp [add_property, he, lookup_property, Ne.symm h, h2]
    · simp [add_property, he, lookup_property, ih]

theorem mem_add_property {l : PropertySeq} {p q : Property}
    (h : q ∈ add_property l p) : q = p ∨ q ∈ l := by
  induction l with
  | nil => simpa [add_property] using h
  | cons e rest ih =>
    by_cases he : e.name = p.name
    · simp only [add_property, if_pos he, List.mem_cons] at h
      rcases h with h | h
      · exact Or.inl h
      · exact Or.inr (List.mem_cons_of_mem _ h)
    · simp only [add_property, if_neg he, List.mem_cons] at h
      rcases h with h | h
      · exact Or.inr (h ▸ List.mem_cons_self _ _)
      · rcases ih h with h | h
        · exact Or.inl h
        · exact Or.inr (List.mem_cons_of_mem _ h)

theorem map_name_add_property (l : PropertySeq) (p : Property) :
    (add_property l p).map Property.name =
      if p.name ∈ l.map Property.name then l.map Property.name
      else l.map Property.name ++ [p.name] := by
  induction l with
  | nil => simp [add_property]
  | cons e rest ih =>
    by_cases he : e.name = p.name
    · simp [add_property, he]
    · by_cases hm : p.name ∈ rest.map Property.name
      · simp [add_property, he, ih, hm, Ne.symm he]
      · simp [add_property, he, ih, hm, Ne.symm he]

theorem names_unique_add_property {l : PropertySeq} (p : Property)
    (h : names_unique l) : names_unique (add_property l p) := by
  unfold names_unique at h ⊢
  rw [map_name_add_property]
  by_cases hm : p.name ∈ l.map Property.name
  · rw [if_pos hm]; exact h
  · rw [if_neg hm]
    exact (List.nodup_append.mpr ⟨h, List.nodup_singleton _, by simpa using hm⟩)

theorem add_property_of_not_mem (l : PropertySeq) (p : Property)
    (h : p.name ∉ l.map Property.name) : add_property l p = l ++ [p] := by
  induction l with
  | nil => simp [add_property]
  | cons e rest ih =>
    simp only [List.map_cons, List.mem_cons] at h
    push_neg at h
    simp [add_property, Ne.symm h.1, ih h.2]

theorem add_property_replace (l₁ l₂ : PropertySeq) (q p : Property)
    (hq : q.name = p.name) (h : p.name ∉ l₁.map Property.name) :
    add_property (l₁ ++ q :: l₂) p = l₁ ++ p :: l₂ := by
  induction l₁ with
  | nil => simp [add_property, hq]
  | cons e rest ih =>
    simp only [List.map_cons, List.mem_cons] at h
    push_neg at h
    simp [add_property, Ne.symm h.1, ih h.2]

theorem mem_of_lookup {l : PropertySeq} {n v : String}
    (h : lookup_property l n = some v) : (⟨n, v⟩ : Property) ∈ l := by
  induction l with
  | nil => simp [lookup_property] at h
  | cons e rest ih =>
    by_cases he : e.name = n
    · simp only [lookup_property, if_pos he, Option.some.injEq] at h
      have : e = ⟨n, v⟩ := by cases e; simp_all
      exact this ▸ List.mem_cons_self _ _
    · simp only [lookup_property, if_neg he] at h
      exact List.mem_cons_of_mem _ (ih h)

theorem lookup_foldl_not_mem (props : PropertySeq) (new : PropertySeq) (n : String)
    (h : n ∉ new.map Property.name) :
    lookup_property (List.foldl add_property props new) n = lookup_property props n := by
  induction new generalizing props with
  | nil => rfl
  | cons p rest ih =>
    simp only [List.map_cons, List.mem_cons] at h
    push_neg at h
    rw [List.foldl_cons, ih _ h.2, lookup_add_property_ne _ _ _ h.1]

theorem lookup_foldl_mem (props : PropertySeq) {new : PropertySeq} {p : Property}
    (hu : names_unique new) (hm : p ∈ new) :
    lookup_property (List.foldl add_property props new) p.name = some p.value := by
  induction new generalizing props with
  | nil => simp at hm
  | cons q rest ih =>
    unfold names_unique at hu
    simp only [List.map_cons, List.nodup_cons] at hu
    rcases List.mem_cons.mp hm with h | h
    · subst h
      rw [List.foldl_cons, lookup_foldl_not_mem _ _ _ hu.1, lookup_add_property_self]
    · rw [List.foldl_cons]
      exact ih _ hu.2 h

theorem names_unique_foldl (props : PropertySeq) (new : PropertySeq)
    (h : names_unique props) : names_unique (List.foldl add_property props new) := by
  induction new generalizing props with
  | nil => exact h
  | cons p rest ih =>
    rw [List.foldl_cons]
    exact ih _ (names_unique_add_property p h)

theorem lookup_foldl_of_lookup (props : PropertySeq) {new : PropertySeq} {n v : String}
    (hu : names_unique new) (h : lookup_property new n = some v) :
    lookup_property (List.foldl add_property props new) n = some v :=
  lookup_foldl_mem props hu (mem_of_lookup h)

/-! ## Characterization of the parsing steps -/

theorem except_bind_ok {α β : Type} {e : Except String α} {f : α → Except String β} {out : β}
    (h : e.bind f = .ok out) : ∃ a, e = .ok a ∧ f a = .ok out := by
  cases e with
  | error m => simp [Except.bind] at h
  | ok a => exact ⟨a, rfl, by simpa [Except.bind] using h⟩

theorem apfxe_ok_cases {props : PropertySeq} {pn : String} {el : XMLElement} {tag : String}
    {out : PropertySeq} (h : add_property_from_xml_element props pn el tag = .ok out) :
    out = props ∨ ∃ t, out = add_property props ⟨pn, t⟩ := by
  unfold add_property_from_xml_element at h
  split at h
  · exact Or.inl (Except.ok.inj h).symm
  · split at h
    · simp at h
    · exact Or.inr ⟨_, (Except.ok.inj h).symm⟩

theorem names_unique_apfxe {props : PropertySeq} {pn : String} {el : XMLElement} {tag : String}
    {out : PropertySeq} (h : add_property_from_xml_element props pn el tag = .ok out)
    (hu : names_unique props) : names_unique out := by
  rcases apfxe_ok_cases h with rfl | ⟨t, rfl⟩
  · exact hu
  · exact names_unique_add_property _ hu

theorem qps_ok_cases {props : PropertySeq} {qe : XMLElement} {out : PropertySeq}
    (h : qos_profile_step props qe = .ok out) :
    out = props ∨ ∃ prof, out = add_properties_from_qos_profile props prof := by
  unfold qos_profile_step at h
  split at h
  · exact Or.inl (Except.ok.inj h).symm
  · split at h
    · simp at h
    · split at h
      · simp at h
      · exact Or.inr ⟨_, (Except.ok.inj h).symm⟩

theorem names_unique_qps {props : PropertySeq} {qe : XMLElement} {out : PropertySeq}
    (h : qos_profile_step props qe = .ok out) (hu : names_unique props) : names_unique out := by
  rcases qps_ok_cases h with rfl | ⟨prof, rfl⟩
  · exact hu
  · exact names_unique_add_property _ hu

theorem parse_log_element_sl_unique {le : XMLElement} {out : PropertySeq}
    (h : RmwSecurityLogging.parse_log_element le = .ok out) : names_unique out := by
  unfold RmwSecurityLogging.parse_log_element at h
  obtain ⟨P1, h1, h⟩ := except_bind_ok h
  obtain ⟨P2, h2, h⟩ := except_bind_ok h
  obtain ⟨P3, h3, h⟩ := except_bind_ok h
  have u0 : names_unique
      (add_property [] ⟨logging_plugin_property_name, "builtin.DDS_LogTopic"⟩) := by decide
  have u1 := names_unique_apfxe h1 u0
  have u2 := names_unique_apfxe h2 u1
  have u3 := names_unique_apfxe h3 u2
  rcases hq : le.firstChildElement "qos" with _ | qe
  · rw [hq] at h
    exact (Except.ok.inj h) ▸ u3
  · rw [hq] at h
    obtain ⟨P4, h4, h5⟩ := except_bind_ok h
    exact names_unique_apfxe h5 (names_unique_qps h4 u3)

theorem names_in_add_property {l : PropertySeq} {s : List String} {p : Property}
    (hl : names_in l s) (hp : p.name ∈ s) : names_in (add_property l p) s := by
  intro q hq
  rcases mem_add_property hq with rfl | hq2
  · exact hp
  · exact hl q hq2

theorem names_in_apfxe {props : PropertySeq} {pn : String} {el : XMLElement} {tag : String}
    {out : PropertySeq} {s : List String}
    (h : add_property_from_xml_element props pn el tag = .ok out)
    (hl : names_in props s) (hp : pn ∈ s) : names_in out s := by
  rcases apfxe_ok_cases h with rfl | ⟨t, rfl⟩
  · exact hl
  · exact names_in_add_property hl hp

theorem names_in_qps {props : PropertySeq} {qe : XMLElement} {out : PropertySeq}
    {s : List String} (h : qos_profile_step props qe = .ok out)
    (hl : names_in props s) (hp : distribute_depth_property_name ∈ s) : names_in out s := by
  rcases qps_ok_cases h with rfl | ⟨prof, rfl⟩
  · exact hl
  · exact names_in_add_property hl hp

theorem parse_log_element_s_names {le : XMLElement} {out : PropertySeq}
    (h : RmwSecurity.parse_log_element le = .ok out) : names_in out security_parser_names := by
  unfold RmwSecurity.parse_log_element at h
  obtain ⟨P1, h1, h⟩ := except_bind_ok h
  obtain ⟨P2, h2, h⟩ := except_bind_ok h
  obtain ⟨P3, h3, h⟩ := except_bind_ok h
  have b0 : names_in
      (add_property [] ⟨logging_plugin_property_name, "builtin.DDS_LogTopic"⟩)
      security_parser_names := by decide
  have b1 := names_in_apfxe h1 b0 (by decide)
  have b2 := names_in_apfxe h2 b1 (by decide)
  have b3 := names_in_apfxe h3 b2 (by decide)
  rcases hq : le.firstChildElement "qos" with _ | qe
  · rw [hq] at h
    exact (Except.ok.inj h) ▸ b3
  · rw [hq] at h
    obtain ⟨P4, h4, h5⟩ := except_bind_ok h
    exact names_in_apfxe h5 (names_in_qps h4 b3 (by decide)) (by decide)

/-! ## Relating the two logging parsers (renaming the verbosity property) -/

theorem rename_name_eq (p : Property) :
    (spec_rename_verbosity p).name =
      if p.name = RmwSecurity.verbosity_property_name then
        RmwSecurityLogging.verbosity_property_name
      else p.name := by
  unfold spec_rename_verbosity
  split <;> rfl

theorem rename_value_eq (p : Property) : (spec_rename_verbosity p).value = p.value := by
  unfold spec_rename_verbosity
  split <;> rfl

theorem map_rename_id {l : PropertySeq}
    (h : ∀ q ∈ l, q.name ≠ RmwSecurity.verbosity_property_name) :
    l.map spec_rename_verbosity = l := by
  induction l with
  | nil => rfl
  | cons e rest ih =>
    have he := h e (List.mem_cons_self _ _)
    rw [List.map_cons, ih (fun q hq => h q (List.mem_cons_of_mem _ hq))]
    unfold spec_rename_verbosity
    rw [if_neg he]

theorem add_property_map_rename (l : PropertySeq) (p : Property)
    (hl : no_event_name l)
    (hp : p.name ≠ RmwSecurityLogging.verbosity_property_name) :
    add_property (l.map spec_rename_verbosity) (spec_rename_verbosity p) =
      (add_property l p).map spec_rename_verbosity := by
  induction l with
  | nil => simp [add_property]
  | cons e rest ih =>
    have he2 := hl e (List.mem_cons_self _ _)
    have hcond : ((spec_rename_verbosity e).name = (spec_rename_verbosity p).name) ↔
        (e.name = p.name) := by
      rw [rename_name_eq, rename_name_eq]
      by_cases h1 : e.name = RmwSecurity.verbosity_property_name <;>
        by_cases h2 : p.name = RmwSecurity.verbosity_property_name
      · simp [h1, h2]
      · rw [if_pos h1, if_neg h2]
        constructor
        · intro hc; exact absurd hc.symm hp
        · intro hc; exact absurd (h1 ▸ hc : RmwSecurity.verbosity_property_name = p.name).symm h2
      · rw [if_neg h1, if_pos h2]
        constructor
        · intro hc; exact absurd hc he2
        · intro hc; exact absurd (hc.trans h2) h1
      · rw [if_neg h1, if_neg h2]
    by_cases hname : e.name = p.name
    · simp only [List.map_cons, add_property, if_pos hname, if_pos (hcond.mpr hname)]
    · simp only [List.map_cons, add_property, if_neg hname,
        if_neg (fun hc => hname (hcond.mp hc))]
      rw [ih (fun q hq => hl q (List.mem_cons_of_mem _ hq))]

theorem no_event_name_add_property {l : PropertySeq} {p : Property}
    (hl : no_event_name l)
    (hp : p.name ≠ RmwSecurityLogging.verbosity_property_name) :
    no_event_name (add_property l p) := by
  intro q hq
  rcases mem_add_property hq with rfl | hq2
  · exact hp
  · exact hl q hq2

theorem no_event_name_apfxe {props : PropertySeq} {pn : String} {el : XMLElement}
    {tag : String} {out : PropertySeq}
    (h : add_property_from_xml_element props pn el tag = .ok out)
    (hl : no_event_name props)
    (hp : pn ≠ RmwSecurityLogging.verbosity_property_name) : no_event_name out := by
  rcases apfxe_ok_cases h with rfl | ⟨t, rfl⟩
  · exact hl
  · exact no_event_name_add_property hl hp

theorem apfxe_map_rename (l : PropertySeq) (pn : String) (el : XMLElement) (tag : String)
    (hl : no_event_name l)
    (hp : pn ≠ RmwSecurityLogging.verbosity_property_name) :
    add_property_from_xml_element (l.map spec_rename_verbosity)
        (if pn = RmwSecurity.verbosity_property_name then
          RmwSecurityLogging.verbosity_property_name else pn) el tag =
      Except.map (List.map spec_rename_verbosity)
        (add_property_from_xml_element l pn el tag) := by
  unfold add_property_from_xml_element
  cases hfc : el.firstChildElement tag with
  | none => simp [Except.map]
  | some tagel =>
    cases ht : tagel.text with
    | none => simp [ht, Except.map]
    | some t =>
      simp only [ht, Except.map]
      have hren : (⟨if pn = RmwSecurity.verbosity_property_name then
          RmwSecurityLogging.verbosity_property_name else pn, t⟩ : Property) =
          spec_rename_verbosity ⟨pn, t⟩ := by
        unfold spec_rename_verbosity
        split <;> simp_all
      rw [hren, add_property_map_rename l ⟨pn, t⟩ hl hp]

theorem dd_ne_event_name :
    distribute_depth_property_name ≠ RmwSecurityLogging.verbosity_property_name := by
  decide

theorem dd_ne_security_name :
    distribute_depth_property_name ≠ RmwSecurity.verbosity_property_name := by
  decide

theorem no_event_name_qps {props : PropertySeq} {qe : XMLElement} {out : PropertySeq}
    (h : qos_profile_step props qe = .ok out) (hl : no_event_name props) :
    no_event_name out := by
  rcases qps_ok_cases h with rfl | ⟨prof, rfl⟩
  · exact hl
  · exact no_event_name_add_property hl dd_ne_event_name

theorem qps_map_rename (l : PropertySeq) (qe : XMLElement) (hl : no_event_name l) :
    qos_profile_step (l.map spec_rename_verbosity) qe =
      Except.map (List.map spec_rename_verbosity) (qos_profile_step l qe) := by
  unfold qos_profile_step
  cases hfc : qe.firstChildElement "profile" with
  | none => simp [Except.map]
  | some pe =>
    cases ht : pe.text with
    | none => simp [ht, Except.map]
    | some ps =>
      cases hr : string_to_rmw_qos_profile ps with
      | none => simp [ht, hr, Except.map]
      | some prof =>
        simp only [ht, hr, Except.map]
        unfold add_properties_from_qos_profile
        have hren : (⟨distribute_depth_property_name, toString prof.depth⟩ : Property) =
            spec_rename_verbosity ⟨distribute_depth_property_name, toString prof.depth⟩ := by
          unfold spec_rename_verbosity
          rw [if_neg dd_ne_security_name]
        have key := add_property_map_rename l
          ⟨distribute_depth_property_name, toString prof.depth⟩ hl dd_ne_event_name
        rw [← hren] at key
        rw [key]

theorem foldl_add_property_map_rename (new : PropertySeq) (acc : PropertySeq)
    (hacc : no_event_name acc) (hnew : no_event_name new) :
    List.foldl add_property (acc.map spec_rename_verbosity)
        (new.map spec_rename_verbosity) =
      (List.foldl add_property acc new).map spec_rename_verbosity := by
  induction new generalizing acc with
  | nil => rfl
  | cons p rest ih =>
    rw [List.map_cons, List.foldl_cons, List.foldl_cons,
      add_property_map_rename acc p hacc (hnew p (List.mem_cons_self _ _))]
    exact ih (add_property acc p)
      (no_event_name_add_property hacc (hnew p (List.mem_cons_self _ _)))
      (fun q hq => hnew q (List.mem_cons_of_mem _ hq))

theorem parse_log_element_relate (le : XMLElement) :
    RmwSecurityLogging.parse_log_element le =
      Except.map (List.map spec_rename_verbosity) (RmwSecurity.parse_log_element le) := by
  unfold RmwSecurityLogging.parse_log_element RmwSecurity.parse_log_element
  simp only []
  cases h1 : add_property_from_xml_element
      (add_property [] ⟨logging_plugin_property_name, "builtin.DDS_LogTopic"⟩)
      log_file_property_name le "file" with
  | error m => rfl
  | ok P1 =>
    simp only [Except.bind]
    have hb1 : names_in P1 [logging_plugin_property_name, log_file_property_name] :=
      names_in_apfxe h1 (by decide) (by decide)
    have hid : P1.map spec_rename_verbosity = P1 :=
      map_rename_id (fun q hq hc => (by decide :
        RmwSecurity.verbosity_property_name ∉
          [logging_plugin_property_name, log_file_property_name]) (hc ▸ hb1 q hq))
    have hno1 : no_event_name P1 :=
      fun q hq hc => (by decide :
        RmwSecurityLogging.verbosity_property_name ∉
          [logging_plugin_property_name, log_file_property_name]) (hc ▸ hb1 q hq)
    have hv := apfxe_map_rename P1 RmwSecurity.verbosity_property_name le "verbosity"
      hno1 (by decide)
    rw [if_pos rfl, hid] at hv
    cases h2 : add_property_from_xml_element P1 RmwSecurity.verbosity_property_name le
        "verbosity" with
    | error m =>
      rw [h2] at hv
      rw [hv]
      rfl
    | ok P2 =>
      rw [h2] at hv
      simp only [Except.map] at hv
      rw [hv]
      simp only [Except.bind]
      have hno2 : no_event_name P2 := no_event_name_apfxe h2 hno1 (by decide)
      have hd := apfxe_map_rename P2 distribute_enable_property_name le "distribute"
        hno2 (by decide)
      rw [if_neg (by decide)] at hd
      cases h3 : add_property_from_xml_element P2 distribute_enable_property_name le
          "distribute" with
      | error m =>
        rw [h3] at hd
        rw [hd]
        rfl
      | ok P3 =>
        rw [h3] at hd
        simp only [Except.map] at hd
        rw [hd]
        simp only [Except.bind]
        have hno3 : no_event_name P3 := no_event_name_apfxe h3 hno2 (by decide)
        cases hq : le.firstChildElement "qos" with
        | none => rfl
        | some qe =>
          simp only []
          have hqps := qps_map_rename P3 qe hno3
          cases h4 : qos_profile_step P3 qe with
          | error m =>
            rw [h4] at hqps
            rw [hqps]
            rfl
          | ok P4 =>
            rw [h4] at hqps
            simp only [Except.map] at hqps
            rw [hqps]
            simp only [Except.bind]
            have hno4 : no_event_name P4 := no_event_name_qps h4 hno3
            have hfinal := apfxe_map_rename P4 distribute_depth_property_name qe "depth"
              hno4 dd_ne_event_name
            rw [if_neg dd_ne_security_name] at hfinal
            exact hfinal

/- Sanity checks mirroring the repository tests (scratch). -/
example :
    RmwSecurityLogging.apply_logging_configuration_from_file
      [.mk "security_log" none []] [] =
      (true, none, [⟨logging_plugin_property_name, "builtin.DDS_LogTopic"⟩]) := by
  decide

example :
    RmwSecurityLogging.apply_logging_configuration_from_file
      [.mk "security_log" none
        [.mk "qos" none [.mk "profile" (some "DEFAULT") [], .mk "depth" (some "42") []]]] [] =
      (true, none,
        [⟨logging_plugin_property_name, "builtin.DDS_LogTopic"⟩,
         ⟨distribute_depth_property_name, "42"⟩]) := by
  decide

example :
    RmwSecurityLogging.apply_logging_configuration_from_file
      [.mk "security_log" none
        [.mk "qos" none [.mk "profile" (some "INVALID_PROFILE") []]]] [] =
      (false,
        some "failed to set security logging profile: INVALID_PROFILE is not a supported profile",
        []) := by
  decide

/-! ## Evaluation lemmas for the top-level entry points -/

theorem sl_eq_none (doc : XMLDocument) (props : PropertySeq)
    (hroot : doc.firstChildElement "security_log" = none) :
    RmwSecurityLogging.apply_logging_configuration_from_file doc props =
      (int_to_bool RMW_RET_ERROR,
        some "logger xml file missing \x27security_log\x27", props) := by
  unfold RmwSecurityLogging.apply_logging_configuration_from_file
  rw [hroot]

theorem sl_eq_some (doc : XMLDocument) (props : PropertySeq) (le : XMLElement)
    (hroot : doc.firstChildElement "security_log" = some le) :
    RmwSecurityLogging.apply_logging_configuration_from_file doc props =
      match RmwSecurityLogging.parse_log_element le with
      | .error msg => (false, some msg, props)
      | .ok new_properties => (true, none, List.foldl add_property props new_properties) := by
  unfold RmwSecurityLogging.apply_logging_configuration_from_file
  rw [hroot]

theorem s_eq_none (doc : XMLDocument) (props : PropertySeq)
    (hroot : doc.firstChildElement "security_log" = none) :
    RmwSecurity.apply_logging_configuration_from_file doc props =
      (int_to_bool RMW_RET_ERROR,
        some "logger xml file missing \x27security_log\x27", props) := by
  unfold RmwSecurity.apply_logging_configuration_from_file
  rw [hroot]

theorem s_eq_some (doc : XMLDocument) (props : PropertySeq) (le : XMLElement)
    (hroot : doc.firstChildElement "security_log" = some le) :
    RmwSecurity.apply_logging_configuration_from_file doc props =
      match RmwSecurity.parse_log_element le with
      | .error msg => (false, some msg, props)
      | .ok new_properties => (true, none, List.foldl add_property props new_properties) := by
  unfold RmwSecurity.apply_logging_configuration_from_file
  rw [hroot]

theorem sl_unchanged_of_false {doc : XMLDocument} {props : PropertySeq}
    (h : (RmwSecurityLogging.apply_logging_configuration_from_file doc props).1 = false) :
    (RmwSecurityLogging.apply_logging_configuration_from_file doc props).2.2 = props := by
  cases hroot : doc.firstChildElement "security_log" with
  | none =>
    rw [sl_eq_none doc props hroot] at h
    simp [int_to_bool, RMW_RET_ERROR] at h
  | some le =>
    rw [sl_eq_some doc props le hroot] at h ⊢
    cases hp : RmwSecurityLogging.parse_log_element le with
    | error m => simp only [hp]
    | ok new => rw [hp] at h; simp at h

theorem s_unchanged_of_false {doc : XMLDocument} {props : PropertySeq}
    (h : (RmwSecurity.apply_logging_configuration_from_file doc props).1 = false) :
    (RmwSecurity.apply_logging_configuration_from_file doc props).2.2 = props := by
  cases hroot : doc.firstChildElement "security_log" with
  | none =>
    rw [s_eq_none doc props hroot] at h
    simp [int_to_bool, RMW_RET_ERROR] at h
  | some le =>
    rw [s_eq_some doc props le hroot] at h ⊢
    cases hp : RmwSecurity.parse_log_element le with
    | error m => simp only [hp]
    | ok new => rw [hp] at h; simp at h

/-! ## Claim theorems -/

/-- C3: for a document whose `security_log` root element is absent (as
also results from an unreadable or unparseable XML file), both copies of
the logging-configuration parser set the error message — but, contrary
to the claim, they return `RMW_RET_ERROR` (the nonzero integer 1)
implicitly converted to `bool`, i.e. `true`, a success indicator rather
than a failure indicator. -/
theorem c3_missing_root_sets_error_but_returns_true :
    RmwSecurityLogging.apply_logging_configuration_from_file [] [] =
      (true, some "logger xml file missing \x27security_log\x27", []) ∧
    RmwSecurity.apply_logging_configuration_from_file [] [] =
      (true, some "logger xml file missing \x27security_log\x27", []) ∧
    int_to_bool RMW_RET_ERROR = true := by
  decide

/-- C8: profile resolution succeeds for exactly the six catalog names
under exact case-sensitive string match, and deriving properties from a
resolved profile produces exactly one property — the distribution
history-depth property with the depth rendered as a decimal string. -/
theorem c8_profile_catalog_and_derivation (s : String) (profile : rmw_qos_profile_t) :
    ((string_to_rmw_qos_profile s).isSome ↔
      s ∈ ["SENSOR_DATA", "PARAMETERS", "DEFAULT", "SERVICES_DEFAULT",
        "PARAMETER_EVENTS", "SYSTEM_DEFAULT"]) ∧
    add_properties_from_qos_profile [] profile =
      [⟨distribute_depth_property_name, toString profile.depth⟩] := by
  constructor
  · rw [string_to_rmw_qos_profile, Option.isSome_map', List.find?_isSome]
    simp only [supported_profiles, List.mem_cons, List.not_mem_nil, or_false, beq_iff_eq]
    constructor
    · rintro ⟨x, hx, hs⟩
      rcases hx with rfl | rfl | rfl | rfl | rfl | rfl <;> simp_all
    · rintro (rfl | rfl | rfl | rfl | rfl | rfl)
      · exact ⟨("SENSOR_DATA", rmw_qos_profile_sensor_data), by simp, rfl⟩
      · exact ⟨("PARAMETERS", rmw_qos_profile_parameters), by simp, rfl⟩
      · exact ⟨("DEFAULT", rmw_qos_profile_default), by simp, rfl⟩
      · exact ⟨("SERVICES_DEFAULT", rmw_qos_profile_services_default), by simp, rfl⟩
      · exact ⟨("PARAMETER_EVENTS", rmw_qos_profile_parameter_events), by simp, rfl⟩
      · exact ⟨("SYSTEM_DEFAULT", rmw_qos_profile_system_default), by simp, rfl⟩
  · rfl

/-- C9: a field element (`file`, `verbosity`, `distribute`, `profile`,
`depth`) that is present without text content makes the parse fail with
a malformed-field error naming that field, while an entirely absent
element leaves its property unset and parsing continues successfully. -/
theorem c9_malformed_and_absent_fields (props : PropertySeq) (pn : String)
    (el t : XMLElement) (tag : String) (rt : Option String) :
    (el.firstChildElement tag = some t → t.text = none →
      add_property_from_xml_element props pn el tag =
        .error ("failed to set security logging " ++ tag ++ ": improper format")) ∧
    (el.firstChildElement tag = none →
      add_property_from_xml_element props pn el tag = .ok props) ∧
    (RmwSecurityLogging.apply_logging_configuration_from_file
        [.mk "security_log" rt [.mk "file" none []]] props =
      (false, some "failed to set security logging file: improper format", props)) ∧
    (RmwSecurityLogging.apply_logging_configuration_from_file
        [.mk "security_log" rt [.mk "verbosity" none []]] props =
      (false, some "failed to set security logging verbosity: improper format", props)) ∧
    (RmwSecurityLogging.apply_logging_configuration_from_file
        [.mk "security_log" rt [.mk "distribute" none []]] props =
      (false, some "failed to set security logging distribute: improper format", props)) ∧
    (RmwSecurityLogging.apply_logging_configuration_from_file
        [.mk "security_log" rt [.mk "qos" none [.mk "profile" none []]]] props =
      (false, some "failed to set security logging profile: improper format", props)) ∧
    (RmwSecurityLogging.apply_logging_configuration_from_file
        [.mk "security_log" rt [.mk "qos" none [.mk "depth" none []]]] props =
      (false, some "failed to set security logging depth: improper format", props)) ∧
    (RmwSecurityLogging.apply_logging_configuration_from_file
        [.mk "security_log" rt []] props =
      (true, none,
        add_property props ⟨logging_plugin_property_name, "builtin.DDS_LogTopic"⟩)) := by
  refine ⟨?_, ?_, rfl, rfl, rfl, rfl, rfl, rfl⟩
  · intro h1 h2
    unfold add_property_from_xml_element
    rw [h1]
    simp only [h2]
  · intro h1
    unfold add_property_from_xml_element
    rw [h1]

/-- C9 witness: concrete instantiation discharging the two hypothetical
conjuncts at an element with an empty `file` child and at an element
with no `file` child. -/
theorem c9_malformed_and_absent_fields_witness :
    ((XMLElement.mk "r" none [.mk "file" none []]).firstChildElement "file" =
        some (.mk "file" none []) ∧
      (XMLElement.mk "file" none []).text = none ∧
      add_property_from_xml_element [] "n" (.mk "r" none [.mk "file" none []]) "file" =
        .error ("failed to set security logging " ++ "file" ++ ": improper format")) ∧
    ((XMLElement.mk "r" none []).firstChildElement "file" = none ∧
      add_property_from_xml_element [] "n" (.mk "r" none []) "file" = .ok []) := by
  refine ⟨⟨rfl, rfl, ?_⟩, ⟨rfl, ?_⟩⟩
  · exact (c9_malformed_and_absent_fields [] "n" (.mk "r" none [.mk "file" none []])
      (.mk "file" none []) "file" none).1 rfl rfl
  · exact (c9_malformed_and_absent_fields [] "n" (.mk "r" none [])
      (.mk "file" none []) "file" none).2.1 rfl

theorem aso_some_eq (readable : String → Bool) (read_xml : String → XMLDocument)
    (root : String) (enforce : Bool) (props : PropertySeq) :
    apply_security_options readable read_xml ⟨some root, enforce⟩ props =
      match get_security_file_paths readable root {} with
      | (true, security_files) =>
        let policy := props ++ core_security_properties security_files
        if security_files.logging_path.isEmpty then (true, none, policy)
        else
          RmwSecurity.apply_logging_configuration_from_file
            (read_xml security_files.logging_path) policy
      | (false, _) =>
        if enforce then (false, some "couldn\x27t find all security files!", props)
        else (true, none, props) := rfl

/-- C4: with no security root path configured, `apply_security_options`
returns success and adds no properties; with a root configured but file
resolution failing, it fails exactly when enforcement is requested, and
with enforcement off it returns success with no properties added. -/
theorem c4_no_root_and_enforcement (readable : String → Bool)
    (read_xml : String → XMLDocument) (enforce : Bool) (props : PropertySeq)
    (root : String) :
    (apply_security_options readable read_xml ⟨none, enforce⟩ props =
      (true, none, props)) ∧
    ((get_security_file_paths readable root {}).1 = false →
      apply_security_options readable read_xml ⟨some root, enforce⟩ props =
        if enforce then (false, some "couldn\x27t find all security files!", props)
        else (true, none, props)) := by
  constructor
  · rfl
  · intro h
    rw [aso_some_eq]
    rcases hg : get_security_file_paths readable root {} with ⟨b, sf⟩
    rw [hg] at h
    simp only [] at h
    subst h
    cases enforce <;> rfl

/-- C4 witness: a filesystem on which nothing is readable makes
resolution fail, and the build then fails under enforcement. -/
theorem c4_no_root_and_enforcement_witness :
    ((get_security_file_paths (fun _ => false) "root" {}).1 = false) ∧
    apply_security_options (fun _ => false) (fun _ => []) ⟨some "root", true⟩ [] =
      (if true then
        ((false : Bool), some "couldn\x27t find all security files!", ([] : PropertySeq))
      else (true, none, [])) :=
  ⟨by decide,
    (c4_no_root_and_enforcement (fun _ => false) (fun _ => []) true [] "root").2 (by decide)⟩

/-- C5: on successful file resolution (and no logging descriptor found),
the build succeeds and appends exactly the nine core properties, in
source order, each file-path value being the resolved path prefixed with
`file://`. -/
theorem c5_nine_core_properties (readable : String → Bool)
    (read_xml : String → XMLDocument) (root : String) (props : PropertySeq)
    (enforce : Bool) (sf : security_files_t)
    (hres : get_security_file_paths readable root {} = (true, sf))
    (hlog : sf.logging_path = "") :
    apply_security_options readable read_xml ⟨some root, enforce⟩ props =
      (true, none, props ++
        [⟨"dds.sec.auth.plugin", "builtin.PKI-DH"⟩,
         ⟨"dds.sec.auth.builtin.PKI-DH.identity_ca",
           "file://" ++ sf.identity_ca_cert_path⟩,
         ⟨"dds.sec.auth.builtin.PKI-DH.identity_certificate", "file://" ++ sf.cert_path⟩,
         ⟨"dds.sec.auth.builtin.PKI-DH.private_key", "file://" ++ sf.key_path⟩,
         ⟨"dds.sec.crypto.plugin", "builtin.AES-GCM-GMAC"⟩,
         ⟨"dds.sec.access.plugin", "builtin.Access-Permissions"⟩,
         ⟨"dds.sec.access.builtin.Access-Permissions.permissions_ca",
           "file://" ++ sf.permissions_ca_cert_path⟩,
         ⟨"dds.sec.access.builtin.Access-Permissions.governance",
           "file://" ++ sf.governance_path⟩,
         ⟨"dds.sec.access.builtin.Access-Permissions.permissions",
           "file://" ++ sf.permissions_path⟩]) := by
  rw [aso_some_eq, hres]
  have hE : ("" : String).isEmpty = true := rfl
  simp [core_security_properties, path_to_uri, hlog, hE]

/-- C5 witness: a filesystem where the six mandatory files are readable
and logging.xml is not. -/
theorem c5_nine_core_properties_witness :
    get_security_file_paths (fun p => p != "root/logging.xml") "root" {} =
      (true, ⟨"root/identity_ca.cert.pem", "root/permissions_ca.cert.pem",
        "root/governance.p7s", "root/cert.pem", "root/key.pem", "root/permissions.p7s",
        ""⟩) ∧
    apply_security_options (fun p => p != "root/logging.xml") (fun _ => [])
        ⟨some "root", true⟩ [] =
      (true, none, [] ++
        [⟨"dds.sec.auth.plugin", "builtin.PKI-DH"⟩,
         ⟨"dds.sec.auth.builtin.PKI-DH.identity_ca",
           "file://" ++ "root/identity_ca.cert.pem"⟩,
         ⟨"dds.sec.auth.builtin.PKI-DH.identity_certificate", "file://" ++ "root/cert.pem"⟩,
         ⟨"dds.sec.auth.builtin.PKI-DH.private_key", "file://" ++ "root/key.pem"⟩,
         ⟨"dds.sec.crypto.plugin", "builtin.AES-GCM-GMAC"⟩,
         ⟨"dds.sec.access.plugin", "builtin.Access-Permissions"⟩,
         ⟨"dds.sec.access.builtin.Access-Permissions.permissions_ca",
           "file://" ++ "root/permissions_ca.cert.pem"⟩,
         ⟨"dds.sec.access.builtin.Access-Permissions.governance",
           "file://" ++ "root/governance.p7s"⟩,
         ⟨"dds.sec.access.builtin.Access-Permissions.permissions",
           "file://" ++ "root/permissions.p7s"⟩]) :=
  ⟨by decide,
    c5_nine_core_properties (fun p => p != "root/logging.xml") (fun _ => []) "root" [] true
      ⟨"root/identity_ca.cert.pem", "root/permissions_ca.cert.pem", "root/governance.p7s",
        "root/cert.pem", "root/key.pem", "root/permissions.p7s", ""⟩ (by decide) rfl⟩

/-- C6: resolution succeeds exactly when all six mandatory files are
readable (an unreadable mandatory file fails the call as a whole, the
caller learning only the single failure indicator), and an unreadable
optional logging descriptor still yields success with the logging path
left as it was (unset). -/
theorem c6_mandatory_files_gate_resolution (readable : String → Bool) (root : String)
    (sf0 : security_files_t) :
    ((get_security_file_paths readable root sf0).1 = true ↔
      (readable (rcutils_join_path root identity_ca_cert_file_name) = true ∧
       readable (rcutils_join_path root permissions_ca_cert_file_name) = true ∧
       readable (rcutils_join_path root governance_file_name) = true ∧
       readable (rcutils_join_path root cert_file_name) = true ∧
       readable (rcutils_join_path root key_file_name) = true ∧
       readable (rcutils_join_path root permissions_file_name) = true)) ∧
    (readable (rcutils_join_path root logging_file_name) = false →
      (get_security_file_paths readable root sf0).2.logging_path = sf0.logging_path) := by
  by_cases h1 : readable (rcutils_join_path root identity_ca_cert_file_name) = true <;>
  by_cases h2 : readable (rcutils_join_path root permissions_ca_cert_file_name) = true <;>
  by_cases h3 : readable (rcutils_join_path root governance_file_name) = true <;>
  by_cases h4 : readable (rcutils_join_path root cert_file_name) = true <;>
  by_cases h5 : readable (rcutils_join_path root key_file_name) = true <;>
  by_cases h6 : readable (rcutils_join_path root permissions_file_name) = true <;>
  by_cases h7 : readable (rcutils_join_path root logging_file_name) = true <;>
  simp_all [get_security_file_paths, get_security_file_path]

/-- C6 witness: a filesystem where everything but logging.xml is
readable; the optional logging path stays unset. -/
theorem c6_mandatory_files_gate_resolution_witness :
    ((fun p => p != "root/logging.xml") (rcutils_join_path "root" logging_file_name)
      = false) ∧
    (get_security_file_paths (fun p => p != "root/logging.xml") "root" {}).2.logging_path =
      ({} : security_files_t).logging_path :=
  ⟨by decide,
    (c6_mandatory_files_gate_resolution (fun p => p != "root/logging.xml") "root" {}).2
      (by decide)⟩

/-- C1: for a logging descriptor whose qos block has a profile child
resolving to a catalog profile and a depth child with text `T`, a
successful parse leaves the distribution-depth property at value `T`
(the profile is merged first, then the explicit depth overwrites it),
regardless of where the profile and depth children sit in the child
list. -/
theorem c1_explicit_depth_overrides_profile
    (doc : XMLDocument) (props : PropertySeq) (le qe pe de : XMLElement)
    (ps T : String) (prof : rmw_qos_profile_t)
    (hroot : doc.firstChildElement "security_log" = some le)
    (hqos : le.firstChildElement "qos" = some qe)
    (_hprof : qe.firstChildElement "profile" = some pe)
    (_hps : pe.text = some ps)
    (_hres : string_to_rmw_qos_profile ps = some prof)
    (hdepth : qe.firstChildElement "depth" = some de)
    (hT : de.text = some T)
    (hret : (RmwSecurityLogging.apply_logging_configuration_from_file doc props).1 = true) :
    lookup_property
      (RmwSecurityLogging.apply_logging_configuration_from_file doc props).2.2
      distribute_depth_property_name = some T := by
  rw [sl_eq_some doc props le hroot] at hret ⊢
  cases hp : RmwSecurityLogging.parse_log_element le with
  | error m =>
    rw [hp] at hret
    exact Bool.noConfusion hret
  | ok new =>
    show lookup_property (List.foldl add_property props new)
      distribute_depth_property_name = some T
    have hu : names_unique new := parse_log_element_sl_unique hp
    unfold RmwSecurityLogging.parse_log_element at hp
    obtain ⟨P1, h1, hp⟩ := except_bind_ok hp
    obtain ⟨P2, h2, hp⟩ := except_bind_ok hp
    obtain ⟨P3, h3, hp⟩ := except_bind_ok hp
    rw [hqos] at hp
    obtain ⟨P4, h4, h5⟩ := except_bind_ok hp
    unfold add_property_from_xml_element at h5
    simp only [hdepth, hT] at h5
    have hnew : new = add_property P4 ⟨distribute_depth_property_name, T⟩ :=
      (Except.ok.inj h5).symm
    have hlook : lookup_property new distribute_depth_property_name = some T := by
      rw [hnew]
      exact lookup_add_property_self P4 ⟨distribute_depth_property_name, T⟩
    exact lookup_foldl_of_lookup props hu hlook

/-- C1 witness: the depth child precedes the profile child in the
document, yet the explicit depth "42" wins over the DEFAULT profile
depth. -/
theorem c1_explicit_depth_overrides_profile_witness :
    (RmwSecurityLogging.apply_logging_configuration_from_file
      [.mk "security_log" none
        [.mk "qos" none [.mk "depth" (some "42") [], .mk "profile" (some "DEFAULT") []]]]
      []).1 = true ∧
    lookup_property
      (RmwSecurityLogging.apply_logging_configuration_from_file
        [.mk "security_log" none
          [.mk "qos" none [.mk "depth" (some "42") [], .mk "profile" (some "DEFAULT") []]]]
        []).2.2
      distribute_depth_property_name = some "42" :=
  ⟨by decide,
    c1_explicit_depth_overrides_profile
      [.mk "security_log" none
        [.mk "qos" none [.mk "depth" (some "42") [], .mk "profile" (some "DEFAULT") []]]]
      [] (.mk "security_log" none
        [.mk "qos" none [.mk "depth" (some "42") [], .mk "profile" (some "DEFAULT") []]])
      (.mk "qos" none [.mk "depth" (some "42") [], .mk "profile" (some "DEFAULT") []])
      (.mk "profile" (some "DEFAULT") []) (.mk "depth" (some "42") [])
      "DEFAULT" "42" rmw_qos_profile_default
      rfl rfl rfl rfl (by decide) rfl rfl (by decide)⟩

/-- C2 counterexample: with all security files readable and a malformed
logging descriptor, `apply_security_options` fails — but the caller
collection, empty before the call, is left holding the nine core
properties: the claim that a failing pass leaves the collection exactly
as before is false for `apply_security_options`. -/
theorem c2_partial_mutation_counterexample :
    (apply_security_options (fun _ => true)
      (fun _ => [.mk "security_log" none [.mk "file" none []]])
      ⟨some "root", true⟩ []).1 = false ∧
    (apply_security_options (fun _ => true)
      (fun _ => [.mk "security_log" none [.mk "file" none []]])
      ⟨some "root", true⟩ []).2.2 ≠ [] := by
  decide

/-- C2 (amended): the logging parser is all-or-nothing — a failing call
leaves the caller collection untouched — ; `apply_security_options`,
however, appends the nine core properties before parsing the logging
descriptor, so on failure the caller collection is either unchanged or
extended by exactly those nine core properties (never by any logging
property). -/
theorem c2_merge_only_after_success :
    (∀ (doc : XMLDocument) (props : PropertySeq),
      (RmwSecurityLogging.apply_logging_configuration_from_file doc props).1 = false →
      (RmwSecurityLogging.apply_logging_configuration_from_file doc props).2.2 = props) ∧
    (∀ (readable : String → Bool) (read_xml : String → XMLDocument)
        (opts : rmw_node_security_options_t) (props : PropertySeq),
      (apply_security_options readable read_xml opts props).1 = false →
      (apply_security_options readable read_xml opts props).2.2 = props ∨
        ∃ sf : security_files_t,
          (apply_security_options readable read_xml opts props).2.2 =
            props ++ core_security_properties sf) := by
  constructor
  · intro doc props h
    exact sl_unchanged_of_false h
  · intro readable read_xml opts props h
    rcases opts with ⟨rp, enforce⟩
    cases rp with
    | none =>
      have he : apply_security_options readable read_xml ⟨none, enforce⟩ props =
        (true, none, props) := rfl
      rw [he] at h
      exact Bool.noConfusion h
    | some root =>
      rw [aso_some_eq] at h ⊢
      rcases hg : get_security_file_paths readable root {} with ⟨b, sf⟩
      rw [hg] at h
      cases b with
      | false => left; cases enforce <;> rfl
      | true =>
        have h' : (if sf.logging_path.isEmpty then
            ((true : Bool), (none : Option String), props ++ core_security_properties sf)
          else
            RmwSecurity.apply_logging_configuration_from_file (read_xml sf.logging_path)
              (props ++ core_security_properties sf)).1 = false := h
        right
        refine ⟨sf, ?_⟩
        show (if sf.logging_path.isEmpty then
            ((true : Bool), (none : Option String), props ++ core_security_properties sf)
          else
            RmwSecurity.apply_logging_configuration_from_file (read_xml sf.logging_path)
              (props ++ core_security_properties sf)).2.2 =
          props ++ core_security_properties sf
        by_cases hL : sf.logging_path.isEmpty = true
        · rw [if_pos hL]
        · rw [if_neg hL] at h' ⊢
          exact s_unchanged_of_false h'

/-- C2 witness: the amended statement applied at the counterexample
inputs. -/
theorem c2_merge_only_after_success_witness :
    ((RmwSecurityLogging.apply_logging_configuration_from_file
        [.mk "security_log" none [.mk "file" none []]] [⟨"a", "b"⟩]).1 = false ∧
      (RmwSecurityLogging.apply_logging_configuration_from_file
        [.mk "security_log" none [.mk "file" none []]] [⟨"a", "b"⟩]).2.2 = [⟨"a", "b"⟩]) ∧
    ((apply_security_options (fun _ => true)
        (fun _ => [.mk "security_log" none [.mk "file" none []]])
        ⟨some "root", true⟩ []).1 = false ∧
      ((apply_security_options (fun _ => true)
          (fun _ => [.mk "security_log" none [.mk "file" none []]])
          ⟨some "root", true⟩ []).2.2 = [] ∨
        ∃ sf : security_files_t,
          (apply_security_options (fun _ => true)
            (fun _ => [.mk "security_log" none [.mk "file" none []]])
            ⟨some "root", true⟩ []).2.2 = [] ++ core_security_properties sf)) :=
  ⟨⟨by decide,
    c2_merge_only_after_success.1 [.mk "security_log" none [.mk "file" none []]]
      [⟨"a", "b"⟩] (by decide)⟩,
   ⟨by decide,
    c2_merge_only_after_success.2 (fun _ => true)
      (fun _ => [.mk "security_log" none [.mk "file" none []]])
      ⟨some "root", true⟩ [] (by decide)⟩⟩

/-- C7 counterexample: `apply_security_options` appends its nine core
properties with `emplace_back` rather than `add_property`, so applied
to a uniquely-named collection that already holds the authentication
plugin property (with a different value), the successful pass leaves a
duplicate name in the collection. -/
theorem c7_emplace_back_duplicates_names :
    names_unique [⟨"dds.sec.auth.plugin", "x"⟩] ∧
    (apply_security_options (fun p => p != "root/logging.xml") (fun _ => [])
      ⟨some "root", true⟩ [⟨"dds.sec.auth.plugin", "x"⟩]).1 = true ∧
    ¬ names_unique (apply_security_options (fun p => p != "root/logging.xml") (fun _ => [])
      ⟨some "root", true⟩ [⟨"dds.sec.auth.plugin", "x"⟩]).2.2 := by
  decide

/-- C7 (amended): `add_property` implements upsert — replacing in place
on an existing name, appending a new name at the end — and preserves
name-uniqueness, as does the merge loop of parsed logging properties;
build's core-property construction appends nine pairwise-distinct fixed
names and preserves uniqueness exactly on collections (such as the fresh
empty one of a configuration pass) that contain none of those nine core
names. -/
theorem c7_upsert_semantics :
    (∀ (l : PropertySeq) (p : Property), p.name ∉ l.map Property.name →
      add_property l p = l ++ [p]) ∧
    (∀ (l₁ l₂ : PropertySeq) (q p : Property), q.name = p.name →
      p.name ∉ l₁.map Property.name →
      add_property (l₁ ++ q :: l₂) p = l₁ ++ p :: l₂) ∧
    (∀ (l : PropertySeq) (p : Property), names_unique l →
      names_unique (add_property l p)) ∧
    (∀ (props new : PropertySeq), names_unique props →
      names_unique (List.foldl add_property props new)) ∧
    (∀ (props : PropertySeq) (sf : security_files_t), names_unique props →
      (∀ q ∈ props, q.name ∉ (core_security_properties sf).map Property.name) →
      names_unique (props ++ core_security_properties sf)) := by
  refine ⟨add_property_of_not_mem, add_property_replace,
    fun l p h => names_unique_add_property p h, names_unique_foldl, ?_⟩
  intro props sf hu hdisj
  unfold names_unique at hu ⊢
  rw [List.map_append]
  refine List.nodup_append.mpr ⟨hu, ?_, ?_⟩
  · have hnames : (core_security_properties sf).map Property.name =
        ["dds.sec.auth.plugin", "dds.sec.auth.builtin.PKI-DH.identity_ca",
         "dds.sec.auth.builtin.PKI-DH.identity_certificate",
         "dds.sec.auth.builtin.PKI-DH.private_key", "dds.sec.crypto.plugin",
         "dds.sec.access.plugin", "dds.sec.access.builtin.Access-Permissions.permissions_ca",
         "dds.sec.access.builtin.Access-Permissions.governance",
         "dds.sec.access.builtin.Access-Permissions.permissions"] := rfl
    rw [hnames]
    decide
  · intro n hn hn2
    rcases List.mem_map.mp hn with ⟨q, hq, rfl⟩
    rcases List.mem_map.mp hn2 with ⟨q2, hq2, he⟩
    exact hdisj q hq (he ▸ List.mem_map_of_mem Property.name hq2)

/-- C7 witness: the amended statement applied at concrete inputs — the
empty collection stays uniquely named through the core construction,
and upsert appends a fresh name at the end. -/
theorem c7_upsert_semantics_witness :
    names_unique ([] ++ core_security_properties {}) ∧
    add_property [] ⟨"a", "b"⟩ = [] ++ [⟨"a", "b"⟩] :=
  ⟨c7_upsert_semantics.2.2.2.2 [] {} (by decide) (by decide),
   c7_upsert_semantics.1 [] ⟨"a", "b"⟩ (by decide)⟩

/-- C10: on every document, the two logging parsers return the same
status and error message, and (starting from a fresh collection) their
outputs agree entry for entry after renaming the verbosity property
name of the security module (`logging_level`) to that of the
security-logging module (`event_log_level`); all other names and all
values coincide. -/
theorem c10_parsers_agree_up_to_verbosity_name (doc : XMLDocument) :
    (RmwSecurity.apply_logging_configuration_from_file doc []).1 =
      (RmwSecurityLogging.apply_logging_configuration_from_file doc []).1 ∧
    (RmwSecurity.apply_logging_configuration_from_file doc []).2.1 =
      (RmwSecurityLogging.apply_logging_configuration_from_file doc []).2.1 ∧
    (RmwSecurityLogging.apply_logging_configuration_from_file doc []).2.2 =
      ((RmwSecurity.apply_logging_configuration_from_file doc []).2.2).map
        spec_rename_verbosity := by
  cases hroot : doc.firstChildElement "security_log" with
  | none =>
    rw [sl_eq_none doc [] hroot, s_eq_none doc [] hroot]
    exact ⟨rfl, rfl, rfl⟩
  | some le =>
    rw [sl_eq_some doc [] le hroot, s_eq_some doc [] le hroot]
    have hrel := parse_log_element_relate le
    cases hp : RmwSecurity.parse_log_element le with
    | error m =>
      rw [hp] at hrel
      simp only [Except.map] at hrel
      rw [hrel]
      exact ⟨rfl, rfl, rfl⟩
    | ok new =>
      rw [hp] at hrel
      simp only [Except.map] at hrel
      rw [hrel]
      refine ⟨rfl, rfl, ?_⟩
      show List.foldl add_property [] (new.map spec_rename_verbosity) =
        (List.foldl add_property [] new).map spec_rename_verbosity
      have hnames := parse_log_element_s_names hp
      have hnoev : no_event_name new := fun q hq hc =>
        (by decide :
          RmwSecurityLogging.verbosity_property_name ∉ security_parser_names)
          (hc ▸ hnames q hq)
      exact foldl_add_property_map_rename new []
        (fun q hq => absurd hq (List.not_mem_nil q)) hnoev
